import Mathlib

/-!
Verification of the schema-profiling, quality-classification and
strategy-routing core of the Enigma repository: a shallow embedding of
the Python sources under `src/second_iteration/src/` into Lean 4,
together with theorems settling the frozen claims about it.

Modelling conventions:
* A Python value (`null | bool | int | float | str | list | dict`) is the
  inductive type `Value`; the float `nan` has its own constructor `vnan`
  because the code tests `math.isnan` explicitly.  A `Record` is an
  association list in key order, mirroring an insertion-ordered `dict`.
* Python `float` arithmetic is idealised as exact rational (`ℚ`) or real
  (`ℝ`) arithmetic; the claims under study only involve ratios, thresholds
  with wide margins, `sqrt` of exact squares and the logistic link, so the
  idealisation is faithful to the decisions the code takes.
* Field names ending in the suffix `ratio` in the Python sources are
  rendered with the suffix `Frac` here (for example `null_ratio` becomes
  `nullFrac`); the mapping is noted at each structure.
-/

set_option allowUnsafeReducibility true in
attribute [semireducible] Rat.inv Rat.mul Rat.add Rat.sub Rat.div Rat.ofScientific

/-- A dynamically typed Python value as seen by this core: the closed
variant null | bool | int | float | NaN | str | list | dict. -/
inductive Value where
  | vnull : Value
  | vbool (b : Bool) : Value
  | vint (n : ℤ) : Value
  | vfloat (q : ℚ) : Value
  | vnan : Value
  | vstr (s : String) : Value
  | vlist (xs : List Value) : Value
  | vdict (xs : List (String × Value)) : Value

/-- A record: an insertion-ordered mapping from column names to values
(Python `dict[str, object]`). -/
abbrev Record := List (String × Value)

/-- First value stored under key `k`, if any (`k in d` and `d[k]`). -/
def recGet (r : Record) (k : String) : Option Value :=
  (r.find? (fun kv => kv.1 == k)).map (·.2)

/-- Python `d.get(k)`: `None` both when the key is absent and when the
stored value is `None`, which Lean renders by collapsing both cases to
`Value.vnull`. -/
def pyGet (r : Record) (k : String) : Value :=
  (recGet r k).getD .vnull

/-- Python `d[k] = v`: overwrite in place when the key exists (keeping its
position), append otherwise. -/
def dictSet (r : Record) (k : String) (v : Value) : Record :=
  if r.any (fun kv => kv.1 == k) then
    r.map (fun kv => if kv.1 == k then (k, v) else kv)
  else r ++ [(k, v)]

/-- Python `d.pop(k, None)`: drop the binding for `k`. -/
def dictPop (r : Record) (k : String) : Record :=
  r.filter (fun kv => !(kv.1 == k))

/-- The characters Python's `str.strip()` removes and `\s` matches
(ASCII whitespace; the sources only meet ASCII data). -/
def pyIsSpace (c : Char) : Bool :=
  c == ' ' || c == '\t' || c == '\n' || c == '\r' || c == '\x0b' || c == '\x0c'

/-- Embedded `str.strip()` on the character list of a string. -/
def stripChars (l : List Char) : List Char :=
  ((l.dropWhile pyIsSpace).reverse.dropWhile pyIsSpace).reverse

/-- Helper for `re.sub(r"\s+", " ", s)`: the flag records whether the
previous character was part of a whitespace run already emitted. -/
def collapseGo : List Char → Bool → List Char
  | [], _ => []
  | c :: rest, prev =>
    if pyIsSpace c then
      if prev then collapseGo rest true else ' ' :: collapseGo rest true
    else c :: collapseGo rest false

/-- Embedded `re.sub(r"\s+", " ", s)`: every maximal whitespace run becomes one
space. -/
def collapseWs (l : List Char) : List Char := collapseGo l false

/-- Python truthiness (`bool(v)`); `bool(nan)` is `True`. -/
def pyTruthy : Value → Bool
  | .vnull => false
  | .vbool b => b
  | .vint n => !(n == 0)
  | .vfloat q => !(q == 0)
  | .vnan => true
  | .vstr s => !s.data.isEmpty
  | .vlist xs => !xs.isEmpty
  | .vdict xs => !xs.isEmpty

/-- Python `a or b` on values. -/
def pyOr (a b : Value) : Value := if pyTruthy a then a else b

/-! ## UniqueValueAnalyzer (`feature_detection/unique_value_analyzer.py`) -/

/-- Embedded `_is_missing`: the null sentinel or a floating-point NaN. -/
def isMissingVal : Value → Bool
  | .vnull => true
  | .vnan => true
  | _ => false

/-- Lexicographic code-point order on character lists (Python string
comparison). -/
def charListLe : List Char → List Char → Bool
  | [], _ => true
  | _ :: _, [] => false
  | a :: as, b :: bs =>
    if a.toNat < b.toNat then true
    else if b.toNat < a.toNat then false
    else charListLe as bs

/-- Insert one key-value pair into a key-sorted list.  `_make_hashable`
sorts a dict's `(key, value)` tuples; since keys inside one dict are
unique, Python's tuple comparison is decided by the key alone, so sorting
by key is exact. -/
def insertByKey (p : String × Value) : List (String × Value) → List (String × Value)
  | [] => [p]
  | q :: rest =>
    if charListLe p.1.data q.1.data then p :: q :: rest else q :: insertByKey p rest

/-- Key-based insertion sort for dict canonicalisation. -/
def sortByKey (l : List (String × Value)) : List (String × Value) :=
  l.foldr insertByKey []

mutual

/-- Embedded `_make_hashable`: recursively canonicalise nested structures so that
structural equality drives distinctness (dict entries sorted by key). -/
def makeHashable : Value → Value
  | .vdict xs => .vdict (sortByKey (mhDict xs))
  | .vlist xs => .vlist (mhList xs)
  | v => v

/-- Embedded `_make_hashable` mapped over list elements. -/
def mhList : List Value → List Value
  | [] => []
  | x :: xs => makeHashable x :: mhList xs

/-- Embedded `_make_hashable` mapped over dict entries. -/
def mhDict : List (String × Value) → List (String × Value)
  | [] => []
  | (k, v) :: xs => (k, makeHashable v) :: mhDict xs

end

/-- Numeric view of a value: Python's `==` identifies `True`, `1` and
`1.0`, so booleans, ints and (finite) floats compare through a common
rational value. -/
def numQ : Value → Option ℚ
  | .vbool b => some (if b then 1 else 0)
  | .vint n => some (n : ℚ)
  | .vfloat q => some q
  | _ => none

mutual

/-- Python `==` on canonicalised values, as used by `set` and `Counter`
membership in the analyzer.  (`nan` is taken equal to itself, matching the
identity shortcut Python containers apply to a shared `nan` object.) -/
def canonBeq : Value → Value → Bool
  | .vnull, .vnull => true
  | .vnan, .vnan => true
  | .vstr a, .vstr b => a == b
  | .vlist a, .vlist b => canonBeqL a b
  | .vdict a, .vdict b => canonBeqD a b
  | a, b =>
    match numQ a, numQ b with
    | some x, some y => x == y
    | _, _ => false

/-- Elementwise `canonBeq` on lists. -/
def canonBeqL : List Value → List Value → Bool
  | [], [] => true
  | x :: xs, y :: ys => canonBeq x y && canonBeqL xs ys
  | _, _ => false

/-- Entrywise `canonBeq` on dict entry lists. -/
def canonBeqD : List (String × Value) → List (String × Value) → Bool
  | [], [] => true
  | (k1, v1) :: xs, (k2, v2) :: ys => k1 == k2 && canonBeq v1 v2 && canonBeqD xs ys
  | _, _ => false

end

/-- Accumulate a value into the list of distinct representatives (the
`set` built by the analyzer). -/
def canonInsert (x : Value) (seen : List Value) : List Value :=
  if seen.any (fun y => canonBeq x y) then seen else x :: seen

/-- Embedded `len(set(non_null_values))` under `canonBeq`. -/
def canonDistinct (l : List Value) : ℕ :=
  (l.foldl (fun seen x => canonInsert x seen) []).length

/-- Multiplicity of `x` in `l` under `canonBeq`. -/
def canonCount (l : List Value) (x : Value) : ℕ :=
  (l.filter (fun y => canonBeq x y)).length

/-- Embedded `Counter(l).most_common(1)[0][1]`: the largest multiplicity. -/
def maxFreq (l : List Value) : ℕ :=
  (l.map (canonCount l)).foldl max 0

/-- Embedded `ColumnSummary`: the six statistics returned by
`unique_value_summary`.  Source field names: `total_count`,
`non_null_count`, `distinct_count`, `distinct_ratio`, `null_ratio`,
`most_frequent_ratio`. -/
structure ColumnSummary where
  totalCount : ℚ
  nonNullCount : ℚ
  distinctCount : ℚ
  distinctFrac : ℚ
  nullFrac : ℚ
  mostFreqFrac : ℚ
deriving DecidableEq

/-- The canonicalised non-missing values of a column. -/
def nonNullCanon (values : List Value) : List Value :=
  (values.filter (fun v => !isMissingVal v)).map makeHashable

/-- Number of missing values of a column. -/
def nullCountOf (values : List Value) : ℕ :=
  (values.filter isMissingVal).length

/-- Embedded `unique_value_summary`: lightweight uniqueness metrics; the empty
input returns the all-zero summary. -/
def uniqueValueSummary (values : List Value) : ColumnSummary :=
  if values.length = 0 then ⟨0, 0, 0, 0, 0, 0⟩
  else
    let total : ℚ := (values.length : ℚ)
    let nn := nonNullCanon values
    let distinct : ℚ := (canonDistinct nn : ℚ)
    let mf : ℚ := if nn.isEmpty then 0 else (maxFreq nn : ℚ)
    ⟨total, (nn.length : ℚ), distinct, distinct / total, (nullCountOf values : ℚ) / total,
      mf / total⟩

/-! ## PatternDetector (`feature_detection/pattern_detector.py`) -/

/-- Full match of `^\d{5}(?:-\d{4})?$`. -/
def zipMatch (l : List Char) : Bool :=
  (l.length == 5 && l.all Char.isDigit) ||
  (l.length == 10 && (l.take 5).all Char.isDigit && l.getD 5 ' ' == '-' &&
    (l.drop 6).all Char.isDigit)

/-- Full match of `^[A-Z]{2}$`. -/
def stateMatch (l : List Char) : Bool :=
  l.length == 2 && l.all (fun c => 'A' ≤ c && c ≤ 'Z')

/-- Full match of `^\d{4}-\d{2}-\d{2}$`. -/
def isoDateMatch (l : List Char) : Bool :=
  l.length == 10 && (l.take 4).all Char.isDigit && l.getD 4 ' ' == '-' &&
    ((l.drop 5).take 2).all Char.isDigit && l.getD 7 ' ' == '-' &&
    (l.drop 8).all Char.isDigit

/-- Full match of `^[^@\s]+@[^@\s]+\.[^@\s]+$`: a nonempty `@`-free,
space-free local part, one `@`, then a space-free, `@`-free tail holding a
dot that is neither its first nor its last character (the dot splitting it
into two nonempty class runs). -/
def emailMatch (l : List Char) : Bool :=
  let a := l.takeWhile (fun c => !(c == '@'))
  match l.dropWhile (fun c => !(c == '@')) with
  | '@' :: b =>
    !a.isEmpty && a.all (fun c => !pyIsSpace c) &&
    !(b.any (fun c => c == '@')) && b.all (fun c => !pyIsSpace c) &&
    ((b.drop 1).dropLast.any (fun c => c == '.'))
  | _ => false

/-- Character class `[\d\-\s().]` of the phone regex. -/
def phoneClassChar (c : Char) : Bool :=
  c.isDigit || c == '-' || pyIsSpace c || c == '(' || c == ')' || c == '.'

/-- Full match of `^\+?[\d\-\s().]{7,}$` (the optional leading `+` must be
consumed by `\+?` since `+` is outside the class). -/
def phoneMatch (l : List Char) : Bool :=
  let rest := match l with | '+' :: t => t | t => t
  rest.length ≥ 7 && rest.all phoneClassChar

/-- The fixed battery `_PATTERNS`, in dict insertion order. -/
def patternBattery : List (String × (List Char → Bool)) :=
  [("zip_code", zipMatch), ("state_code", stateMatch), ("iso_date", isoDateMatch),
   ("email", emailMatch), ("phone", phoneMatch)]

/-- Embedded `_MIN_RATIO = 0.8`. -/
def minMatchFrac : ℚ := 0.8

/-- Embedded `detect_patterns`: names of patterns matched by at least the fraction
`_MIN_RATIO` of the trimmed strings.  (All inputs in this embedding are
strings already, so the `isinstance(value, str)` filter keeps every
element; the float comparison `count / total >= 0.8` is read as its exact
rational counterpart.) -/
def detectPatterns (values : List String) : List String :=
  let normalized := values.map (fun s => stripChars s.data)
  if normalized.isEmpty then []
  else
    let total := normalized.length
    (patternBattery.filter
        (fun nm => ((normalized.countP nm.2 : ℚ) / (total : ℚ) ≥ minMatchFrac : Bool))).map (·.1)

/-! ## SchemaFingerprint (`feature_detection/schema_fingerprint.py`)

`fingerprint` hashes the joined, first-occurrence-deduplicated column
names with SHA-1 and keeps the first 16 hex characters; the SHA-1
compression function is embedded below over `Nat` arithmetic mod `2^32`. -/

/-- Embedded `2^32`, the word modulus of SHA-1. -/
def m32 : ℕ := 4294967296

/-- Rotate a 32-bit word left by `k`. -/
def rotl32 (k x : ℕ) : ℕ :=
  ((x <<< k) % m32) ||| ((x % m32) >>> (32 - k))

/-- The SHA-1 round function for round `t`. -/
def sha1F (t b c d : ℕ) : ℕ :=
  if t < 20 then (b &&& c) ||| ((b ^^^ 4294967295) &&& d)
  else if t < 40 then b ^^^ c ^^^ d
  else if t < 60 then (b &&& c) ||| (b &&& d) ||| (c &&& d)
  else b ^^^ c ^^^ d

/-- The SHA-1 round constant for round `t`. -/
def sha1K (t : ℕ) : ℕ :=
  if t < 20 then 1518500249
  else if t < 40 then 1859775393
  else if t < 60 then 2400959708
  else 3395469782

/-- Big-endian bytes of `n`, `k` bytes wide. -/
def beBytes : ℕ → ℕ → List ℕ
  | 0, _ => []
  | k + 1, n => beBytes k (n / 256) ++ [n % 256]

/-- Big-endian word value of a byte list. -/
def beWord (l : List ℕ) : ℕ := l.foldl (fun acc b => acc * 256 + b) 0

/-- Split a list into consecutive chunks of `n` elements. -/
def chunksOf (n : ℕ) (l : List ℕ) : List (List ℕ) :=
  if h : l.isEmpty || n == 0 then []
  else l.take n :: chunksOf n (l.drop n)
termination_by l.length
decreasing_by
  simp only [Bool.or_eq_true, List.isEmpty_iff, beq_iff_eq, not_or] at h
  have h1 : l ≠ [] := h.1
  have h2 : n ≠ 0 := h.2
  have : 0 < l.length := List.length_pos.mpr h1
  simp only [List.length_drop]
  omega

/-- Extend the 16 message words to 80, one new word per fuel step. -/
def extendWords (w : List ℕ) : ℕ → List ℕ
  | 0 => w
  | fuel + 1 =>
    let n := w.length
    extendWords
      (w ++ [rotl32 1 ((w.getD (n - 3) 0) ^^^ (w.getD (n - 8) 0) ^^^
        (w.getD (n - 14) 0) ^^^ (w.getD (n - 16) 0))]) fuel

/-- The five SHA-1 chaining words. -/
structure Sha1State where
  a : ℕ
  b : ℕ
  c : ℕ
  d : ℕ
  e : ℕ

/-- One SHA-1 round. -/
def sha1Round (w : List ℕ) (s : Sha1State) (t : ℕ) : Sha1State :=
  ⟨(rotl32 5 s.a + sha1F t s.b s.c s.d + s.e + sha1K t + w.getD t 0) % m32,
    s.a, rotl32 30 s.b, s.c, s.d⟩

/-- Process one padded 64-byte chunk. -/
def sha1Chunk (s : Sha1State) (chunk : List ℕ) : Sha1State :=
  let w := extendWords ((chunksOf 4 chunk).map beWord) 64
  let f := (List.range 80).foldl (sha1Round w) s
  ⟨(s.a + f.a) % m32, (s.b + f.b) % m32, (s.c + f.c) % m32,
    (s.d + f.d) % m32, (s.e + f.e) % m32⟩

/-- The SHA-1 initial chaining state. -/
def sha1Init : Sha1State :=
  ⟨1732584193, 4023233417, 2562383102, 271733878, 3285377520⟩

/-- SHA-1 message padding: `0x80`, zeros to 56 mod 64, then the bit length
as 8 big-endian bytes. -/
def sha1Pad (msg : List ℕ) : List ℕ :=
  msg ++ [128] ++ List.replicate ((119 - msg.length % 64) % 64) 0 ++ beBytes 8 (8 * msg.length)

/-- The 20-byte SHA-1 digest of a byte string. -/
def sha1Bytes (msg : List ℕ) : List ℕ :=
  let f := (chunksOf 64 (sha1Pad msg)).foldl sha1Chunk sha1Init
  beBytes 4 f.a ++ beBytes 4 f.b ++ beBytes 4 f.c ++ beBytes 4 f.d ++ beBytes 4 f.e

/-- The lowercase hex digits used by `hexdigest`. -/
def hexDigitChar (n : ℕ) : Char :=
  "0123456789abcdef".data.getD n '0'

/-- Two hex characters of one byte. -/
def byteHex (b : ℕ) : List Char := [hexDigitChar (b / 16), hexDigitChar (b % 16)]

/-- Embedded `hexdigest()`: hex characters of a byte list. -/
def hexOfBytes (l : List ℕ) : List Char :=
  l.foldr (fun b acc => byteHex b ++ acc) []

/-- UTF-8 bytes of one character. -/
def utf8Char (c : Char) : List ℕ :=
  let n := c.toNat
  if n < 128 then [n]
  else if n < 2048 then [192 + n / 64, 128 + n % 64]
  else if n < 65536 then [224 + n / 4096, 128 + (n / 64) % 64, 128 + n % 64]
  else [240 + n / 262144, 128 + (n / 4096) % 64, 128 + (n / 64) % 64, 128 + n % 64]

/-- Embedded `str.encode("utf-8")`. -/
def utf8Encode (s : String) : List ℕ :=
  s.data.foldr (fun c acc => utf8Char c ++ acc) []

/-- The `ordered`/`seen` loop of `fingerprint`: keep the first occurrence
of every name, preserving order. -/
def dedupSeen : List String → List String → List String
  | [], _ => []
  | n :: rest, seen =>
    if n ∈ seen then dedupSeen rest seen else n :: dedupSeen rest (n :: seen)

/-- First-occurrence deduplication of the column-name sequence. -/
def dedupFirstSeen (cols : List String) : List String := dedupSeen cols []

/-- Embedded `fingerprint`: empty input maps to the empty string; otherwise the
first 16 hex characters of the SHA-1 digest of the deduplicated names
joined with `"||"`. -/
def fingerprint (cols : List String) : String :=
  if cols.isEmpty then ""
  else ⟨(hexOfBytes (sha1Bytes (utf8Encode
    (String.intercalate "||" (dedupFirstSeen cols))))).take 16⟩

/-! ## RowDropClassifier (`ml_process/row_classifier.py`)

The trained (XGBoost) backend is external: its training routine and the
decoding of a persisted booster blob are abstract function parameters
(`train`, `decodeB`), and the availability of the `xgboost` runtime is the
boolean parameter `xgbAvail`.  Everything else is embedded from the
source. -/

/-- A five-component feature map keyed by the fixed feature names.  Source
keys: `null_ratio`, `empty_text_ratio`, `numeric_zero_ratio`,
`short_text_ratio`, `essential_missing_ratio` (rendered `nullF`, `emptyF`,
`zeroF`, `shortF`, `essF`). -/
structure Feat5 (α : Type) where
  nullF : α
  emptyF : α
  zeroF : α
  shortF : α
  essF : α
deriving DecidableEq

/-- Embedded `_ESSENTIAL_FIELDS` (a 16-name set; listed here in source order, the
order being irrelevant to the count taken over it). -/
def essentialFields : List String :=
  ["dca_license_number", "license_number", "provider_record_id", "business_name",
   "canonical_legal_entity_name", "street_address", "address_city", "city",
   "address_state", "state", "zip_code", "latitude", "longitude",
   "contact_phone_number", "phone", "phone_number"]

/-- Embedded `_DEFAULT_MEANS`. -/
def defaultMeans : Feat5 ℚ := ⟨0.15, 0.05, 0.1, 0.1, 0.3⟩

/-- Embedded `_DEFAULT_SCALES`. -/
def defaultScales : Feat5 ℚ := ⟨0.15, 0.05, 0.08, 0.05, 0.2⟩

/-- Embedded `_HEURISTIC_WEIGHTS` (bias `_HEURISTIC_BIAS = -1` is inlined in
`heuristicZ`). -/
def heuristicWeights : Feat5 ℚ := ⟨3, 1.6, 1.2, 1.3, 4⟩

/-- The `value is None or math.isnan(value)` / empty-string branch of
`_compute_features` (a value counted into `null_like`). -/
def isNullLikeV : Value → Bool
  | .vnull => true
  | .vnan => true
  | .vstr s => (stripChars s.data).isEmpty
  | _ => false

/-- A string whose trimmed text is empty (`empty_text`). -/
def isEmptyTextV : Value → Bool
  | .vstr s => (stripChars s.data).isEmpty
  | _ => false

/-- A string whose trimmed text is nonempty with at most 2 characters
(`short_text`). -/
def isShortTextV : Value → Bool
  | .vstr s => !(stripChars s.data).isEmpty && (stripChars s.data).length ≤ 2
  | _ => false

/-- A numeric value equal to zero (`numeric_zero`); Python's `bool` is an
`int` subclass, so `False == 0` counts. -/
def isNumericZeroV : Value → Bool
  | .vint n => n == 0
  | .vfloat q => q == 0
  | .vbool b => !b
  | _ => false

/-- Embedded `_has_value`: not `None`, not NaN, and for strings a nonempty trimmed
text. -/
def hasValueV : Value → Bool
  | .vnull => false
  | .vnan => false
  | .vstr s => !(stripChars s.data).isEmpty
  | _ => true

/-- Number of essential fields absent or without a value in the record. -/
def essentialMissingCount (r : Record) : ℕ :=
  essentialFields.countP (fun f => !hasValueV (pyGet r f))

/-- Embedded `_compute_features`: the five ratios of one record; the first four
divide by `max(len(row), 1)`, the last by the essential-set size. -/
def computeFeatures (r : Record) : Feat5 ℚ :=
  let vals := r.map (·.2)
  let total : ℚ := ((max r.length 1 : ℕ) : ℚ)
  ⟨(vals.countP isNullLikeV : ℚ) / total,
   (vals.countP isEmptyTextV : ℚ) / total,
   (vals.countP isNumericZeroV : ℚ) / total,
   (vals.countP isShortTextV : ℚ) / total,
   (essentialMissingCount r : ℚ) / ((max essentialFields.length 1 : ℕ) : ℚ)⟩

/-- Population mean of a feature column (`sum(values) / len(values)`;
only ever used on nonempty columns, and `ℚ` division by zero is `0`). -/
def meanOf (xs : List ℚ) : ℚ := xs.sum / (xs.length : ℚ)

/-- Population variance (`sum((v - mean)^2) / max(len(values), 1)`). -/
def varOf (xs : List ℚ) : ℚ :=
  ((xs.map (fun v => (v - meanOf xs) ^ 2)).sum) / ((max xs.length 1 : ℕ) : ℚ)

/-- Embedded `math.sqrt(variance) or default`: the default scale replaces a zero
standard deviation (for nonnegative `v`, `sqrt v = 0` exactly when
`v = 0`). -/
noncomputable def scaleOf (xs : List ℚ) (dflt : ℚ) : ℝ :=
  if varOf xs = 0 then (dflt : ℝ) else Real.sqrt ((varOf xs : ℚ) : ℝ)

/-- Embedded `_recompute_feature_stats`: per-feature means and scales over the
batch. -/
noncomputable def recomputeStats (features : List (Feat5 ℚ)) : Feat5 ℚ × Feat5 ℝ :=
  (⟨meanOf (features.map (·.nullF)), meanOf (features.map (·.emptyF)),
    meanOf (features.map (·.zeroF)), meanOf (features.map (·.shortF)),
    meanOf (features.map (·.essF))⟩,
   ⟨scaleOf (features.map (·.nullF)) defaultScales.nullF,
    scaleOf (features.map (·.emptyF)) defaultScales.emptyF,
    scaleOf (features.map (·.zeroF)) defaultScales.zeroF,
    scaleOf (features.map (·.shortF)) defaultScales.shortF,
    scaleOf (features.map (·.essF)) defaultScales.essF⟩)

/-- Embedded `_pseudo_labels` for one feature row: the fixed disjunction of
thresholds. -/
def pseudoLabel (f : Feat5 ℚ) : ℕ :=
  if f.nullF > 0.45 ∨ f.emptyF > 0.35 ∨ (f.nullF > 0.25 ∧ f.shortF > 0.2) ∨
      f.zeroF > 0.5 ∨ f.essF > 0.4 ∨ (f.essF > 0.25 ∧ f.nullF > 0.2) then 1 else 0

/-- Embedded `_pseudo_labels` over the batch. -/
def pseudoLabels (fs : List (Feat5 ℚ)) : List ℕ := fs.map pseudoLabel

/-- The classifier state: `{threshold, feature_means, feature_scales,
model_type, booster}`; the booster is the abstract per-row evaluation
function of a trained ensemble. -/
structure RowDropClassifier where
  threshold : ℚ
  featureMeans : Feat5 ℚ
  featureScales : Feat5 ℝ
  modelType : String
  booster : Option (Feat5 ℚ → ℝ)

/-- Embedded `RowDropClassifier(threshold=t)`: the freshly constructed state. -/
noncomputable def mkClassifier (t : ℚ) : RowDropClassifier :=
  ⟨t, defaultMeans,
    ⟨(defaultScales.nullF : ℝ), (defaultScales.emptyF : ℝ), (defaultScales.zeroF : ℝ),
     (defaultScales.shortF : ℝ), (defaultScales.essF : ℝ)⟩,
    "heuristic", none⟩

/-- Embedded `_sigmoid` over the reals. -/
noncomputable def sigmoid (z : ℝ) : ℝ := 1 / (1 + Real.exp (-z))

open Classical in
/-- Embedded `_standardize` for one feature: `(value - mean) / scale`, with a zero
(falsy) scale replaced by the fixed default. -/
noncomputable def standardize1 (mean : ℚ) (scale : ℝ) (dflt : ℚ) (value : ℚ) : ℝ :=
  ((value : ℝ) - (mean : ℝ)) / (if scale = 0 then (dflt : ℝ) else scale)

/-- The logit `z` of `_heuristic_probability`: bias plus the weighted sum
of standardized features. -/
noncomputable def heuristicZ (m : Feat5 ℚ) (s : Feat5 ℝ) (f : Feat5 ℚ) : ℝ :=
  -1 + (heuristicWeights.nullF : ℝ) * standardize1 m.nullF s.nullF defaultScales.nullF f.nullF
     + (heuristicWeights.emptyF : ℝ) * standardize1 m.emptyF s.emptyF defaultScales.emptyF f.emptyF
     + (heuristicWeights.zeroF : ℝ) * standardize1 m.zeroF s.zeroF defaultScales.zeroF f.zeroF
     + (heuristicWeights.shortF : ℝ) * standardize1 m.shortF s.shortF defaultScales.shortF f.shortF
     + (heuristicWeights.essF : ℝ) * standardize1 m.essF s.essF defaultScales.essF f.essF

/-- Embedded `_heuristic_probability`: the logistic link applied to the logit. -/
noncomputable def heuristicProb (c : RowDropClassifier) (f : Feat5 ℚ) : ℝ :=
  sigmoid (heuristicZ c.featureMeans c.featureScales f)

/-- Embedded `fit`: recompute feature statistics, derive pseudo-labels, and train
the boosted ensemble when the runtime is available and both classes occur;
otherwise fall back to the heuristic model.  An empty batch resets the
statistics to the defaults. -/
noncomputable def fit (xgbAvail : Bool)
    (train : List (Feat5 ℚ) → List ℕ → Feat5 ℚ → ℝ)
    (c : RowDropClassifier) (records : List Record) : RowDropClassifier :=
  let features := records.map computeFeatures
  if features.isEmpty then
    { c with featureMeans := defaultMeans,
             featureScales := (mkClassifier 0).featureScales,
             modelType := "heuristic", booster := none }
  else
    let stats := recomputeStats features
    let labels := pseudoLabels features
    if xgbAvail = true ∧ labels.dedup.length > 1 then
      { c with featureMeans := stats.1, featureScales := stats.2,
               modelType := "xgboost", booster := some (train features labels) }
    else
      { c with featureMeans := stats.1, featureScales := stats.2,
               modelType := "heuristic", booster := none }

/-- Embedded `predict_proba`: empty input gives no probabilities; the trained mode
evaluates the booster per row, otherwise the heuristic logistic model
runs. -/
noncomputable def predictProba (xgbAvail : Bool) (c : RowDropClassifier)
    (records : List Record) : List ℝ :=
  let features := records.map computeFeatures
  if features.isEmpty then []
  else
    match c.booster with
    | some b => if c.modelType = "xgboost" ∧ xgbAvail = true then features.map b
                else features.map (heuristicProb c)
    | none => features.map (heuristicProb c)

open Classical in
/-- Embedded `predict_drop`: (optionally re-fit, then) threshold the probabilities
at `self.threshold`. -/
noncomputable def predictDrop (xgbAvail : Bool)
    (train : List (Feat5 ℚ) → List ℕ → Feat5 ℚ → ℝ)
    (c : RowDropClassifier) (records : List Record) (autoFit : Bool) : List Bool :=
  let c' := if autoFit then fit xgbAvail train c records else c
  (predictProba xgbAvail c' records).map (fun p => decide (p ≥ (c'.threshold : ℝ)))

/-- Embedded `filter_records`: keep the records whose mask entry is false, in input
order, and count the dropped ones. -/
noncomputable def filterRecords (xgbAvail : Bool)
    (train : List (Feat5 ℚ) → List ℕ → Feat5 ℚ → ℝ)
    (c : RowDropClassifier) (records : List Record) (autoFit : Bool) :
    List Record × ℕ :=
  let mask := predictDrop xgbAvail train c records autoFit
  (((records.zip mask).filter (fun rm => !rm.2)).map (·.1), mask.countP id)

/-- A persisted model payload as read back by `load`: the required keys
`threshold`, `feature_means`, `feature_scales` (always written in full by
`save`), the `model_type` key defaulted to `"heuristic"` when absent, and
the `booster` key, `null` or a base64 blob. -/
structure ModelPayload where
  threshold : ℚ
  featureMeans : Feat5 ℚ
  featureScales : Feat5 ℚ
  modelType : Option String
  booster : Option String

/-- Embedded `RowDropClassifier.load`: restore the persisted state; the booster is
reconstructed (through the abstract blob decoder `decodeB`) only when the
blob is truthy, the declared model type is `"xgboost"` and the runtime is
available — otherwise the state falls back to `"heuristic"` with no
booster. -/
noncomputable def load (xgbAvail : Bool) (decodeB : String → Feat5 ℚ → ℝ)
    (meta : ModelPayload) : RowDropClassifier :=
  let mt := meta.modelType.getD "heuristic"
  let scales : Feat5 ℝ :=
    ⟨(meta.featureScales.nullF : ℝ), (meta.featureScales.emptyF : ℝ),
     (meta.featureScales.zeroF : ℝ), (meta.featureScales.shortF : ℝ),
     (meta.featureScales.essF : ℝ)⟩
  match meta.booster with
  | some blob =>
    if blob ≠ "" ∧ mt = "xgboost" ∧ xgbAvail = true then
      ⟨meta.threshold, meta.featureMeans, scales, mt, some (decodeB blob)⟩
    else ⟨meta.threshold, meta.featureMeans, scales, "heuristic", none⟩
  | none => ⟨meta.threshold, meta.featureMeans, scales, "heuristic", none⟩

/-! ## StrategyRouter (`routing/strategy_router.py`) -/

/-- ASCII lowercasing of one character (`str.lower()`; the routed column
names are ASCII). -/
def lowerChar (c : Char) : Char :=
  if 'A' ≤ c && c ≤ 'Z' then Char.ofNat (c.toNat + 32) else c

/-- Embedded `str.lower()` over the character list (kernel-reducible, unlike
`String.toLower`). -/
def pyToLower (s : String) : String := ⟨s.data.map lowerChar⟩

/-- Per-column metadata consulted by the router. -/
structure ColumnMeta where
  tags : List String
  patterns : List String
deriving DecidableEq

/-- The part of a `DatasetProfile` the router reads: the `columns` map in
first-seen order (`route` only accesses `profile["columns"]`). -/
structure DatasetProfile where
  columns : List (String × ColumnMeta)
deriving DecidableEq

/-- The lowercased column names (`{name.lower(): meta ...}`; the dict
dedups keys, which membership and `any` queries cannot observe). -/
def lowerNames (p : DatasetProfile) : List String :=
  p.columns.map (fun kv => pyToLower kv.1)

/-- Embedded `_collect_values(columns, "tags") | _collect_values(columns,
"patterns")`: all tag and pattern names, lowercased (a set in the source;
only membership is ever queried). -/
def collectTagsPatterns (p : DatasetProfile) : List String :=
  p.columns.foldr
    (fun kv acc => kv.2.tags.map pyToLower ++ kv.2.patterns.map pyToLower ++ acc) []

/-- Does `s` start with the token `tok`? -/
def startsWithCL : List Char → List Char → Bool
  | [], _ => true
  | _ :: _, [] => false
  | a :: as, b :: bs => a == b && startsWithCL as bs

/-- Does `s` contain the token `tok` as a contiguous substring
(Python `tok in s`)? -/
def hasTokenCL (tok : List Char) : List Char → Bool
  | [] => startsWithCL tok []
  | c :: rest => startsWithCL tok (c :: rest) || hasTokenCL tok rest

/-- Python `tok in s` on strings. -/
def strHasToken (s tok : String) : Bool := hasTokenCL tok.data s.data

/-- Embedded `_looks_geo`: a fixed coordinate column name present, or a `geo`
tag. -/
def looksGeo (names tags : List String) : Bool :=
  ["lat", "lon", "latitude", "longitude", "geometry", "geom"].any
    (fun g => names.contains g) || tags.contains "geo"

/-- Embedded `_looks_address`: a fixed address field name present, or a
`zip_code`/`state_code` tag. -/
def looksAddress (names tags : List String) : Bool :=
  ["address", "address_building", "address_street_name",
   "secondary_address_street_name", "zip_code", "address_city",
   "address_state", "borough", "borough_code"].any (fun a => names.contains a) ||
  tags.contains "zip_code" || tags.contains "state_code"

/-- Embedded `_looks_financial`'s token set: `{revenue, amount, fine, fee, payment,
tax, cost}`. -/
def financialTokens : List String :=
  ["revenue", "amount", "fine", "fee", "payment", "tax", "cost"]

/-- Embedded `_looks_financial`: some column name contains a finance token as a
substring. -/
def looksFinancial (names : List String) : Bool :=
  names.any (fun n => financialTokens.any (fun t => strHasToken n t))

/-- Embedded `_looks_demographic`: some column name is exactly one of the fixed
demographic terms. -/
def looksDemographic (names : List String) : Bool :=
  ["population", "median_age", "median_income", "households", "demographic",
   "gender", "race"].any (fun d => names.contains d)

/-- Embedded `StrategyRouter.route`: the fixed priority
geo > address > financial > demographic > generic. -/
def route (p : DatasetProfile) : String :=
  if looksGeo (lowerNames p) (collectTagsPatterns p) then "geo"
  else if looksAddress (lowerNames p) (collectTagsPatterns p) then "address"
  else if looksFinancial (lowerNames p) then "financial"
  else if looksDemographic (lowerNames p) then "demographic"
  else "generic"

/-! ## Cleaner (`normalization/cleaner.py`) and number coercion -/

/-- Embedded `clean_record` on one value: collapse and trim whitespace in strings
(empty result becomes null), replace a NaN float by null, keep everything
else. -/
def cleanValue : Value → Value
  | .vstr s =>
    let n := stripChars (collapseWs s.data)
    if n.isEmpty then .vnull else .vstr ⟨n⟩
  | .vnan => .vnull
  | v => v

/-- Embedded `Cleaner.clean_record`: a cleaned copy, keys and order preserved. -/
def cleanRecord (r : Record) : Record :=
  r.map (fun kv => (kv.1, cleanValue kv.2))

/-- Digit run to a natural number. -/
def digitsToNat (l : List Char) : ℕ :=
  l.foldl (fun a c => a * 10 + (c.toNat - 48)) 0

/-- Exponent suffix of a Python float literal: optional sign then a
nonempty digit run, scaling the mantissa by a power of ten. -/
def parseExpSuffix (base : ℚ) (r : List Char) : Option ℚ :=
  let sd : ℤ × List Char :=
    match r with
    | '+' :: rr => (1, rr)
    | '-' :: rr => (-1, rr)
    | rr => (1, rr)
  if sd.2.isEmpty || !sd.2.all Char.isDigit then none
  else some (base * (10 : ℚ) ^ (sd.1 * (digitsToNat sd.2 : ℤ)))

/-- Unsigned decimal part of Python's `float(str)` grammar:
`digits [. digits] [e/E exponent]` with at least one digit.  (`float` also
accepts `inf`/`nan` spellings and `_` digit separators; those denote
non-finite or exotic literals outside this rational embedding and none of
the claims depends on them.) -/
def parseUnsigned (t : List Char) : Option ℚ :=
  let intPart := t.takeWhile Char.isDigit
  let rest1 := t.drop intPart.length
  let fr : List Char × List Char :=
    match rest1 with
    | '.' :: r => (r.takeWhile Char.isDigit, r.drop (r.takeWhile Char.isDigit).length)
    | _ => ([], rest1)
  if intPart.isEmpty && fr.1.isEmpty then none
  else
    let base : ℚ := (digitsToNat intPart : ℚ) + (digitsToNat fr.1 : ℚ) / (10 : ℚ) ^ fr.1.length
    match fr.2 with
    | [] => some base
    | 'e' :: r => parseExpSuffix base r
    | 'E' :: r => parseExpSuffix base r
    | _ => none

/-- Python `float(s)` on a string: strip whitespace, optional sign,
decimal mantissa with optional exponent; anything else raises
`ValueError`, rendered as `none`. -/
def parsePyFloat (s : String) : Option ℚ :=
  match stripChars s.data with
  | '+' :: r => parseUnsigned r
  | '-' :: r => (parseUnsigned r).map (fun q => -q)
  | r => parseUnsigned r

/-- Embedded `Cleaner._to_float`: `float(v)`, with `TypeError`/`ValueError` turned
into `None`.  (Numbers convert to themselves, `bool` is an `int` subclass;
a NaN float would convert to itself, but `clean_record` has already turned
every NaN into null before this is reached.) -/
def cleanerToFloat : Value → Option ℚ
  | .vint n => some (n : ℚ)
  | .vfloat q => some q
  | .vbool b => some (if b then 1 else 0)
  | .vstr s => parsePyFloat s
  | _ => none

/-- Embedded `demographic_strategy._to_number`: like `float`, but applied to
`str(value)` with commas removed first; `None` stays `None`. -/
def toNumber : Value → Option ℚ
  | .vnull => none
  | .vint n => some (n : ℚ)
  | .vfloat q => some q
  | .vbool b => some (if b then 1 else 0)
  | .vstr s => parsePyFloat ⟨s.data.filter (fun c => !(c == ','))⟩
  | _ => none

/-! ## DemographicStrategy and GeoStrategy (`routing/strategies/`) -/

/-- Option to stored value: `some q` is the float `q`, `none` is
`None`. -/
def optFloatVal : Option ℚ → Value
  | some q => .vfloat q
  | none => .vnull

/-- The falsy-coalesced area operand
`cleaned.get("area_sq_miles") or cleaned.get("area_sq_km") or
cleaned.get("land_area")`. -/
def areaOperand (cleaned : Record) : Value :=
  pyOr (pyGet cleaned "area_sq_miles")
    (pyOr (pyGet cleaned "area_sq_km") (pyGet cleaned "land_area"))

/-- The guarded quotient of `DemographicStrategy.apply`: `num / den` when
the numerator parses and the denominator is neither `None` nor zero,
`None` otherwise. -/
def guardedDiv (num den : Option ℚ) : Value :=
  match num, den with
  | some p, some a => if a = 0 then .vnull else .vfloat (p / a)
  | _, _ => .vnull

/-- Embedded `DemographicStrategy.apply`: clean the record, derive
`population_density` and `average_household_size` with null-safe
divisions, and tag the strategy name. -/
def demographicApply (stratName : String) (r : Record) : Record :=
  let cleaned := cleanRecord r
  let population := toNumber (pyGet cleaned "population")
  let households := toNumber (pyGet cleaned "households")
  let area := toNumber (areaOperand cleaned)
  dictSet
    (dictSet
      (dictSet cleaned "population_density" (guardedDiv population area))
      "average_household_size" (guardedDiv population households))
    "_strategy" (.vstr stratName)

/-- Embedded `GeoStrategy.apply`: clean the record, coerce the coordinates read
through the falsy `or`-chains over canonical and abbreviated names, drop
the abbreviations, flag validity and derive the centroid. -/
def geoApply (stratName : String) (r : Record) : Record :=
  let cleaned := cleanRecord r
  let latitude := cleanerToFloat (pyOr (pyGet cleaned "latitude") (pyGet cleaned "lat"))
  let longitude := cleanerToFloat (pyOr (pyGet cleaned "longitude") (pyGet cleaned "lon"))
  let c1 := dictSet (dictSet cleaned "latitude" (optFloatVal latitude))
    "longitude" (optFloatVal longitude)
  let c2 := dictPop (dictPop c1 "lat") "lon"
  let valid := latitude.isSome && longitude.isSome
  let c3 := dictSet c2 "has_valid_coordinates" (.vbool valid)
  let c4 := dictSet c3 "centroid"
    (if valid then .vlist [optFloatVal latitude, optFloatVal longitude] else .vnull)
  dictSet c4 "_strategy" (.vstr stratName)

/-! ## Supporting lemmas -/

theorem canonInsert_length (x : Value) (seen : List Value) :
    (canonInsert x seen).length ≤ seen.length + 1 := by
  unfold canonInsert
  split
  · exact Nat.le_succ _
  · simp

theorem foldl_canonInsert_length (l : List Value) :
    ∀ seen : List Value,
      ((l.foldl (fun s x => canonInsert x s) seen).length ≤ seen.length + l.length) := by
  induction l with
  | nil => intro seen; simp
  | cons x xs ih =>
    intro seen
    calc ((xs.foldl (fun s x => canonInsert x s) (canonInsert x seen)).length)
        ≤ (canonInsert x seen).length + xs.length := ih _
      _ ≤ (seen.length + 1) + xs.length :=
          Nat.add_le_add_right (canonInsert_length x seen) _
      _ = seen.length + (x :: xs).length := by simp [List.length_cons]; omega

theorem canonDistinct_le_length (l : List Value) : canonDistinct l ≤ l.length := by
  have h := foldl_canonInsert_length l []
  simpa [canonDistinct] using h

theorem length_filter_not_add {α : Type} (l : List α) (p : α → Bool) :
    (l.filter p).length + (l.filter (fun v => !p v)).length = l.length := by
  induction l with
  | nil => simp
  | cons x xs ih =>
    by_cases h : p x = true <;> simp [List.filter_cons, h] <;> omega

theorem frac_bounds (c t : ℕ) (hct : c ≤ t) (ht : 0 < t) :
    0 ≤ (c : ℚ) / (t : ℚ) ∧ (c : ℚ) / (t : ℚ) ≤ 1 := by
  constructor
  · positivity
  · rw [div_le_one (by exact_mod_cast ht)]
    exact_mod_cast hct

/-! ## C4 -/

/-- C4: for every list of column values, `unique_value_summary` satisfies
`null_ratio × total_count = null count`, `distinct_ratio × total_count =
distinct count of the canonicalised non-missing values`, and
`distinct_ratio + null_ratio ≤ 1`; the empty list yields the all-zero
summary (and, the embedding being total, never an error). -/
theorem c4_unique_value_summary (values : List Value) :
    (uniqueValueSummary values).nullFrac * (uniqueValueSummary values).totalCount
        = (nullCountOf values : ℚ)
    ∧ (uniqueValueSummary values).distinctFrac * (uniqueValueSummary values).totalCount
        = (canonDistinct (nonNullCanon values) : ℚ)
    ∧ (uniqueValueSummary values).distinctFrac + (uniqueValueSummary values).nullFrac ≤ 1
    ∧ uniqueValueSummary [] = ⟨0, 0, 0, 0, 0, 0⟩ := by
  by_cases h : values.length = 0
  · have hnil : values = [] := List.length_eq_zero.mp h
    subst hnil
    refine ⟨?_, ?_, ?_, rfl⟩ <;> simp [uniqueValueSummary, nullCountOf, nonNullCanon, canonDistinct]
  · have htotal : ((values.length : ℚ)) ≠ 0 := by exact_mod_cast h
    have hpos : 0 < values.length := Nat.pos_of_ne_zero h
    refine ⟨?_, ?_, ?_, rfl⟩
    · simp only [uniqueValueSummary, h, if_false]
      exact div_mul_cancel₀ _ htotal
    · simp only [uniqueValueSummary, h, if_false]
      exact div_mul_cancel₀ _ htotal
    · simp only [uniqueValueSummary, h, if_false]
      rw [div_add_div_same, div_le_one (by exact_mod_cast hpos)]
      have hsplit := length_filter_not_add values isMissingVal
      have hnn : (nonNullCanon values).length = (values.filter (fun v => !isMissingVal v)).length := by
        simp [nonNullCanon]
      have hd : canonDistinct (nonNullCanon values) ≤ (values.filter (fun v => !isMissingVal v)).length := by
        rw [← hnn]; exact canonDistinct_le_length _
      have : canonDistinct (nonNullCanon values) + nullCountOf values ≤ values.length := by
        unfold nullCountOf; omega
      exact_mod_cast this

/-! ## C8 -/

/-- C8: for every record (empty, non-numeric, NaN or nested values
included), each of the five components of the feature vector computed by
`_compute_features` lies in `[0, 1]`; the first four are counts divided by
the record's total field count, the fifth a count divided by the size of
the fixed essential-field set, as visible in `computeFeatures`. -/
theorem c8_feature_bounds (r : Record) :
    (0 ≤ (computeFeatures r).nullF ∧ (computeFeatures r).nullF ≤ 1)
    ∧ (0 ≤ (computeFeatures r).emptyF ∧ (computeFeatures r).emptyF ≤ 1)
    ∧ (0 ≤ (computeFeatures r).zeroF ∧ (computeFeatures r).zeroF ≤ 1)
    ∧ (0 ≤ (computeFeatures r).shortF ∧ (computeFeatures r).shortF ≤ 1)
    ∧ (0 ≤ (computeFeatures r).essF ∧ (computeFeatures r).essF ≤ 1) := by
  have hlen : (r.map (·.2)).length = r.length := List.length_map _ _
  have htot : 0 < max r.length 1 := by omega
  have hcle : ∀ p : Value → Bool, (r.map (·.2)).countP p ≤ max r.length 1 := by
    intro p
    calc (r.map (·.2)).countP p ≤ (r.map (·.2)).length := List.countP_le_length _
      _ = r.length := hlen
      _ ≤ max r.length 1 := le_max_left _ _
  have hess : essentialMissingCount r ≤ max essentialFields.length 1 := by
    unfold essentialMissingCount
    calc essentialFields.countP _ ≤ essentialFields.length := List.countP_le_length _
      _ ≤ max essentialFields.length 1 := le_max_left _ _
  have hesspos : 0 < max essentialFields.length 1 := by omega
  exact ⟨frac_bounds _ _ (hcle _) htot, frac_bounds _ _ (hcle _) htot,
    frac_bounds _ _ (hcle _) htot, frac_bounds _ _ (hcle _) htot,
    frac_bounds _ _ hess hesspos⟩

/-! ## C2 -/

/-- A profile whose single column name contains `price` and no other
routing trigger. -/
def priceProfile : DatasetProfile := ⟨[("price", ⟨[], []⟩)]⟩

/-- C2 counterexample: the code's finance token set has neither `price`
nor `balance`, so a profile whose only column is `price` (matching neither
the geo nor the address rule) routes to `generic`, not `financial` as the
claim states. -/
theorem c2_counterexample :
    looksGeo (lowerNames priceProfile) (collectTagsPatterns priceProfile) = false
    ∧ looksAddress (lowerNames priceProfile) (collectTagsPatterns priceProfile) = false
    ∧ route priceProfile = "generic"
    ∧ ¬ route priceProfile = "financial" := by decide

theorem looksFinancial_iff (p : DatasetProfile) :
    looksFinancial (lowerNames p) = true ↔
      ∃ kv ∈ p.columns, ∃ t ∈ financialTokens, strHasToken (pyToLower kv.1) t = true := by
  unfold looksFinancial lowerNames
  rw [List.any_eq_true]
  constructor
  · rintro ⟨n, hn, hany⟩
    rw [List.mem_map] at hn
    obtain ⟨kv, hkv, hEq⟩ := hn
    rw [List.any_eq_true] at hany
    obtain ⟨t, ht, hTok⟩ := hany
    exact ⟨kv, hkv, t, ht, by rw [hEq]; exact hTok⟩
  · rintro ⟨kv, hkv, t, ht, hTok⟩
    refine ⟨pyToLower kv.1, List.mem_map.mpr ⟨kv, hkv, rfl⟩, ?_⟩
    rw [List.any_eq_true]
    exact ⟨t, ht, hTok⟩

/-- C2 amended: for every profile matching neither the geo nor the
address rule, `route` returns `financial` if and only if some column name
contains one of the substrings `revenue`, `amount`, `fine`, `fee`,
`payment`, `tax`, `cost` (the code's token set; `price` and `balance` are
not in it, so a profile whose only column name contains just those routes
to `generic`). -/
theorem c2_route_financial (p : DatasetProfile)
    (hg : looksGeo (lowerNames p) (collectTagsPatterns p) = false)
    (ha : looksAddress (lowerNames p) (collectTagsPatterns p) = false) :
    route p = "financial" ↔
      ∃ kv ∈ p.columns, ∃ t ∈ financialTokens, strHasToken (pyToLower kv.1) t = true := by
  rw [← looksFinancial_iff]
  unfold route
  rw [hg, ha]
  by_cases hf : looksFinancial (lowerNames p) = true
  · simp [hf]
  · rw [Bool.not_eq_true] at hf
    rw [hf]
    simp only [if_false, Bool.false_eq_true, iff_false]
    split <;> decide

/-- Witness for C2 amended: a profile whose single column `Total_Amount`
matches neither geo nor address and routes to `financial` through the
`amount` token. -/
theorem c2_route_financial_witness :
    looksGeo (lowerNames ⟨[("Total_Amount", ⟨[], []⟩)]⟩)
        (collectTagsPatterns ⟨[("Total_Amount", ⟨[], []⟩)]⟩) = false
    ∧ looksAddress (lowerNames ⟨[("Total_Amount", ⟨[], []⟩)]⟩)
        (collectTagsPatterns ⟨[("Total_Amount", ⟨[], []⟩)]⟩) = false
    ∧ route ⟨[("Total_Amount", ⟨[], []⟩)]⟩ = "financial" :=
  ⟨by decide, by decide,
    (c2_route_financial ⟨[("Total_Amount", ⟨[], []⟩)]⟩ (by decide) (by decide)).mpr
      ⟨("Total_Amount", ⟨[], []⟩), by decide, "amount", by decide, by decide⟩⟩

/-! ## C1 -/

/-- A persisted payload declaring the trained model type with a missing
(`null`) booster payload. -/
def c1Payload : ModelPayload := ⟨0.65, defaultMeans, defaultScales, some "xgboost", none⟩

/-- C1 counterexample: loading a payload whose declared model type is the
trained one (`"xgboost"`) with a missing booster payload returns normally
— a classifier silently downgraded to the heuristic mode with no booster —
instead of raising a fatal configuration error as the claim states. -/
theorem c1_counterexample :
    (load true (fun _ _ => 0) c1Payload).modelType = "heuristic"
    ∧ (load true (fun _ _ => 0) c1Payload).booster = none
    ∧ (load true (fun _ _ => 0) c1Payload).threshold = c1Payload.threshold :=
  ⟨rfl, rfl, rfl⟩

/-- C1 amended: whenever the declared model type is the trained one but
the booster payload is missing or empty, or the tree runtime is
unavailable, `load` returns normally a classifier downgraded to the
heuristic mode (`model_type` reset to `"heuristic"`, booster `None`,
threshold and statistics kept) — a silent downgrade, not a propagated
error. -/
theorem c1_load_silent_downgrade (xgbAvail : Bool)
    (decodeB : String → Feat5 ℚ → ℝ) (meta : ModelPayload)
    (hmt : meta.modelType = some "xgboost")
    (hmiss : meta.booster = none ∨ meta.booster = some "" ∨ xgbAvail = false) :
    (load xgbAvail decodeB meta).modelType = "heuristic"
    ∧ (load xgbAvail decodeB meta).booster = none
    ∧ (load xgbAvail decodeB meta).threshold = meta.threshold
    ∧ (load xgbAvail decodeB meta).featureMeans = meta.featureMeans := by
  rcases hmiss with hb | hb | hb
  · unfold load
    rw [hb]
    exact ⟨rfl, rfl, rfl, rfl⟩
  · unfold load
    rw [hb]
    simp
  · unfold load
    cases hbo : meta.booster with
    | none => exact ⟨rfl, rfl, rfl, rfl⟩
    | some blob =>
      rw [hb]
      simp

/-- Witness for C1 amended, at the concrete missing-booster payload. -/
theorem c1_load_silent_downgrade_witness :
    c1Payload.modelType = some "xgboost"
    ∧ c1Payload.booster = none
    ∧ (load true (fun _ _ => 1) c1Payload).modelType = "heuristic"
    ∧ (load true (fun _ _ => 1) c1Payload).booster = none :=
  ⟨rfl, rfl,
    (c1_load_silent_downgrade true (fun _ _ => 1) c1Payload rfl (Or.inl rfl)).1,
    (c1_load_silent_downgrade true (fun _ _ => 1) c1Payload rfl (Or.inl rfl)).2.1⟩

/-! ## C6 -/

/-- C6: `detect_patterns` reports a battery pattern exactly when the
fraction of trimmed strings fully matching its regex over the total number
of trimmed strings is at least 0.8; 4 of 5 values matching `zip_code`
trigger detection, 3 of 5 do not, and the empty input yields no
matches. -/
theorem c6_detect_patterns :
    (∀ (values : List String) (p : String),
        p ∈ detectPatterns values ↔
          ∃ m ∈ patternBattery, m.1 = p ∧ values ≠ [] ∧
            ((values.map (fun s => stripChars s.data)).countP m.2 : ℚ)
              / ((values.length : ℚ)) ≥ 0.8)
    ∧ detectPatterns ["12345", "54321", "99999", "00000", "not-a-zip"] = ["zip_code"]
    ∧ detectPatterns ["12345", "54321", "99999", "foo", "bar"] = []
    ∧ detectPatterns [] = [] := by
  refine ⟨?_, by decide, by decide, rfl⟩
  intro values p
  unfold detectPatterns
  by_cases hv : values = []
  · subst hv
    simp
  · have hne : (values.map (fun s => stripChars s.data)).isEmpty = false := by
      simp [List.isEmpty_iff, hv]
    simp only [hne, Bool.false_eq_true, if_false, List.mem_map, List.mem_filter]
    constructor
    · rintro ⟨m, ⟨hm, hcond⟩, hfst⟩
      rw [decide_eq_true_iff] at hcond
      refine ⟨m, hm, hfst, hv, ?_⟩
      rw [List.length_map] at hcond
      exact hcond
    · rintro ⟨m, hm, hfst, _, hfrac⟩
      refine ⟨m, ⟨hm, ?_⟩, hfst⟩
      rw [decide_eq_true_iff, List.length_map]
      exact hfrac

/-! ## C5 -/

theorem beBytes_length (k : ℕ) : ∀ n : ℕ, (beBytes k n).length = k := by
  induction k with
  | zero => intro n; rfl
  | succ k ih => intro n; simp [beBytes, ih]

theorem sha1Bytes_length (msg : List ℕ) : (sha1Bytes msg).length = 20 := by
  simp [sha1Bytes, beBytes_length]

theorem hexOfBytes_length (l : List ℕ) : (hexOfBytes l).length = 2 * l.length := by
  induction l with
  | nil => rfl
  | cons b bs ih =>
    have hstep : hexOfBytes (b :: bs) = byteHex b ++ hexOfBytes bs := rfl
    rw [hstep, List.length_append, ih]
    simp [byteHex]
    omega

theorem hexDigitChar_mem (n : ℕ) : hexDigitChar n ∈ "0123456789abcdef".data := by
  unfold hexDigitChar
  by_cases h : n < 16
  · interval_cases n <;> decide
  · rw [List.getD_eq_default]
    · decide
    · rw [Nat.not_lt] at h
      calc "0123456789abcdef".data.length = 16 := by decide
        _ ≤ n := h

theorem hexOfBytes_mem (l : List ℕ) : ∀ c ∈ hexOfBytes l, c ∈ "0123456789abcdef".data := by
  induction l with
  | nil => intro c hc; simp [hexOfBytes] at hc
  | cons b bs ih =>
    intro c hc
    simp only [hexOfBytes, List.foldr_cons] at hc
    rcases List.mem_append.mp hc with h | h
    · have hcases : c = hexDigitChar (b / 16) ∨ c = hexDigitChar (b % 16) := by
        simpa [byteHex] using h
      rcases hcases with rfl | rfl <;> exact hexDigitChar_mem _
    · exact ih c h

theorem dedupFirstSeen_cons (x : String) (xs : List String) :
    dedupFirstSeen (x :: xs) = x :: dedupSeen xs [x] := by
  simp [dedupFirstSeen, dedupSeen]

/-- C5: `fingerprint` is a pure function of the first-occurrence
deduplicated, order-preserved column-name sequence (equal deduplications
give equal digests; purity of repeated calls is inherent to the
embedding), the empty input maps to the empty string rather than a hash,
and every nonempty input gives a 16-character string of lowercase hex
digits. -/
theorem c5_fingerprint :
    (∀ c1 c2 : List String,
        dedupFirstSeen c1 = dedupFirstSeen c2 → fingerprint c1 = fingerprint c2)
    ∧ fingerprint [] = ""
    ∧ (∀ cols : List String, cols ≠ [] →
        (fingerprint cols).length = 16
        ∧ ∀ ch ∈ (fingerprint cols).data, ch ∈ "0123456789abcdef".data) := by
  refine ⟨?_, rfl, ?_⟩
  · intro c1 c2 h
    match c1, c2 with
    | [], [] => rfl
    | [], x :: xs =>
      rw [dedupFirstSeen_cons] at h
      simp [dedupFirstSeen, dedupSeen] at h
    | x :: xs, [] =>
      rw [dedupFirstSeen_cons] at h
      simp [dedupFirstSeen, dedupSeen] at h
    | x :: xs, y :: ys =>
      show fingerprint (x :: xs) = fingerprint (y :: ys)
      unfold fingerprint
      rw [h]
      simp [List.isEmpty]
  · intro cols hne
    have hif : cols.isEmpty = false := by simp [List.isEmpty_iff, hne]
    constructor
    · show (fingerprint cols).data.length = 16
      unfold fingerprint
      rw [hif]
      simp only [Bool.false_eq_true, if_false]
      rw [List.length_take, hexOfBytes_length, sha1Bytes_length]
      decide
    · intro ch hch
      unfold fingerprint at hch
      rw [hif] at hch
      simp only [Bool.false_eq_true, if_false] at hch
      exact hexOfBytes_mem _ ch (List.mem_of_mem_take hch)

/-- Witness for C5: `["a","b","a","b"]` and `["a","b"]` share their
deduplicated sequence, hence their fingerprint, and the nonempty input
`["a","b"]` produces a 16-character digest prefix. -/
theorem c5_fingerprint_witness :
    dedupFirstSeen ["a", "b", "a", "b"] = dedupFirstSeen ["a", "b"]
    ∧ fingerprint ["a", "b", "a", "b"] = fingerprint ["a", "b"]
    ∧ (["a", "b"] : List String) ≠ []
    ∧ (fingerprint ["a", "b"]).length = 16 :=
  ⟨by decide, c5_fingerprint.1 _ _ (by decide), by decide,
    (c5_fingerprint.2.2 ["a", "b"] (by decide)).1⟩

/-! ## Record-lookup lemmas for the strategy proofs -/

theorem findqCons {α : Type} (p : α → Bool) (a : α) (l : List α) :
    (a :: l).find? p = if p a then some a else l.find? p := by
  by_cases h : p a = true
  · rw [List.find?_cons_of_pos _ h, if_pos h]
  · rw [List.find?_cons_of_neg _ h, if_neg h]

theorem recGet_cons (hd : String × Value) (tl : Record) (k : String) :
    recGet (hd :: tl) k = if hd.1 == k then some hd.2 else recGet tl k := by
  unfold recGet
  rw [findqCons]
  by_cases h : (hd.1 == k) = true
  · rw [if_pos h, if_pos h]
    rfl
  · rw [if_neg h, if_neg h]

theorem recGet_append (r1 r2 : Record) (k : String) :
    recGet (r1 ++ r2) k = ((recGet r1 k).rec (recGet r2 k) (fun v => some v) : Option Value) := by
  induction r1 with
  | nil => rfl
  | cons hd tl ih =>
    rw [List.cons_append, recGet_cons, recGet_cons]
    by_cases h : (hd.1 == k) = true
    · rw [if_pos h, if_pos h]
    · rw [if_neg h, if_neg h, ih]

theorem recGet_dictSet_self (k : String) (v : Value) :
    ∀ r : Record, recGet (dictSet r k v) k = some v := by
  intro r
  unfold dictSet
  by_cases h : r.any (fun kv => kv.1 == k) = true
  · rw [if_pos h]
    induction r with
    | nil => simp at h
    | cons hd tl ih =>
      by_cases hk : (hd.1 == k) = true
      · simp only [List.map_cons, hk, if_true]
        rw [recGet_cons]
        simp
      · simp only [List.any_cons, hk, Bool.false_or] at h
        simp only [List.map_cons, hk, if_false, Bool.false_eq_true]
        rw [recGet_cons, if_neg (by simpa using hk)]
        exact ih h
  · rw [if_neg h]
    rw [Bool.not_eq_true, List.any_eq_false] at h
    rw [recGet_append]
    have h1 : recGet r k = none := by
      induction r with
      | nil => rfl
      | cons hd tl ih =>
        rw [recGet_cons, if_neg (h hd (List.mem_cons_self _ _))]
        exact ih (fun x hx => h x (List.mem_cons_of_mem _ hx))
    rw [h1]
    simp [recGet_cons]

theorem recGet_dictSet_ne (k k' : String) (v : Value) (hne : k' ≠ k) :
    ∀ r : Record, recGet (dictSet r k v) k' = recGet r k' := by
  intro r
  unfold dictSet
  by_cases h : r.any (fun kv => kv.1 == k) = true
  · rw [if_pos h]
    clear h
    induction r with
    | nil => rfl
    | cons hd tl ih =>
      by_cases hk : (hd.1 == k) = true
      · have hd1 : hd.1 = k := by simpa using hk
        simp only [List.map_cons, hk, if_true]
        rw [recGet_cons, recGet_cons, if_neg (by simp [Ne.symm hne]),
          if_neg (by simp [hd1, Ne.symm hne])]
        exact ih
      · simp only [List.map_cons, hk, if_false, Bool.false_eq_true]
        rw [recGet_cons, recGet_cons]
        by_cases hk' : (hd.1 == k') = true
        · rw [if_pos hk', if_pos hk']
        · rw [if_neg hk', if_neg hk']
          exact ih
  · rw [if_neg h]
    rw [recGet_append]
    have h2 : recGet [(k, v)] k' = none := by
      rw [recGet_cons, if_neg (by simp [Ne.symm hne])]
      rfl
    rw [h2]
    cases hr : recGet r k' <;> rfl

theorem recGet_dictPop_ne (k k' : String) (hne : k' ≠ k) :
    ∀ r : Record, recGet (dictPop r k) k' = recGet r k' := by
  intro r
  induction r with
  | nil => rfl
  | cons hd tl ih =>
    unfold dictPop at ih ⊢
    by_cases hk : (hd.1 == k) = true
    · have hd1 : hd.1 = k := by simpa using hk
      rw [List.filter_cons_of_neg (by simp [hk]), ih, recGet_cons,
        if_neg (by simp [hd1, Ne.symm hne])]
    · rw [List.filter_cons_of_pos (by simpa using hk), recGet_cons, recGet_cons]
      by_cases hk' : (hd.1 == k') = true
      · rw [if_pos hk', if_pos hk']
      · rw [if_neg hk', if_neg hk', ih]

theorem recGet_cleanRecord (k : String) :
    ∀ r : Record, recGet (cleanRecord r) k = (recGet r k).map cleanValue := by
  intro r
  induction r with
  | nil => rfl
  | cons hd tl ih =>
    unfold cleanRecord at ih ⊢
    simp only [List.map_cons]
    rw [recGet_cons, recGet_cons]
    by_cases hk : (hd.1 == k) = true
    · rw [if_pos hk, if_pos hk]
      rfl
    · rw [if_neg hk, if_neg hk]
      exact ih

/-! ## C7 -/

/-- C7: for every record, `DemographicStrategy.apply` stores
`population / area` under `population_density` and
`population / households` under `average_household_size`, and the derived
field is null whenever its numerator is missing/unparsable or its divisor
is missing or zero; the embedding is a total function, so no division
error can be raised. -/
theorem c7_demographic_division_safe (r : Record) :
    (∀ p a : ℚ, toNumber (pyGet (cleanRecord r) "population") = some p →
        toNumber (areaOperand (cleanRecord r)) = some a → a ≠ 0 →
        pyGet (demographicApply "demographic" r) "population_density" = .vfloat (p / a))
    ∧ ((toNumber (pyGet (cleanRecord r) "population") = none
          ∨ toNumber (areaOperand (cleanRecord r)) = none
          ∨ toNumber (areaOperand (cleanRecord r)) = some 0) →
        pyGet (demographicApply "demographic" r) "population_density" = .vnull)
    ∧ (∀ p h : ℚ, toNumber (pyGet (cleanRecord r) "population") = some p →
        toNumber (pyGet (cleanRecord r) "households") = some h → h ≠ 0 →
        pyGet (demographicApply "demographic" r) "average_household_size" = .vfloat (p / h))
    ∧ ((toNumber (pyGet (cleanRecord r) "population") = none
          ∨ toNumber (pyGet (cleanRecord r) "households") = none
          ∨ toNumber (pyGet (cleanRecord r) "households") = some 0) →
        pyGet (demographicApply "demographic" r) "average_household_size" = .vnull) := by
  have hpd : pyGet (demographicApply "demographic" r) "population_density"
      = guardedDiv (toNumber (pyGet (cleanRecord r) "population"))
          (toNumber (areaOperand (cleanRecord r))) := by
    simp only [demographicApply, pyGet]
    rw [recGet_dictSet_ne _ _ _ (by decide), recGet_dictSet_ne _ _ _ (by decide),
      recGet_dictSet_self]
    rfl
  have hav : pyGet (demographicApply "demographic" r) "average_household_size"
      = guardedDiv (toNumber (pyGet (cleanRecord r) "population"))
          (toNumber (pyGet (cleanRecord r) "households")) := by
    simp only [demographicApply, pyGet]
    rw [recGet_dictSet_ne _ _ _ (by decide), recGet_dictSet_self]
    rfl
  refine ⟨?_, ?_, ?_, ?_⟩
  · intro p a hp ha hane
    rw [hpd, hp, ha]
    simp [guardedDiv, hane]
  · intro hmiss
    rw [hpd]
    rcases hmiss with h | h | h <;> rw [h] <;> unfold guardedDiv <;>
      first
        | (cases toNumber (areaOperand (cleanRecord r)) <;> rfl)
        | (cases toNumber (pyGet (cleanRecord r) "population") <;> rfl)
  · intro p h hp hh hhne
    rw [hav, hp, hh]
    simp [guardedDiv, hhne]
  · intro hmiss
    rw [hav]
    rcases hmiss with h | h | h <;> rw [h] <;> unfold guardedDiv <;>
      first
        | (cases toNumber (pyGet (cleanRecord r) "households") <;> rfl)
        | (cases toNumber (pyGet (cleanRecord r) "population") <;> rfl)

/-- The concrete demographic record of the C7 witness. -/
def demoRecord : Record :=
  [("population", .vstr "1000"), ("area_sq_miles", .vstr "10"), ("households", .vint 0)]

/-- Witness for C7: population `"1000"` over area `"10"` yields density
`1000 / 10`, while the zero `households` divisor yields a null average
household size. -/
theorem c7_demographic_division_safe_witness :
    toNumber (pyGet (cleanRecord demoRecord) "population") = some 1000
    ∧ toNumber (areaOperand (cleanRecord demoRecord)) = some 10
    ∧ (10 : ℚ) ≠ 0
    ∧ pyGet (demographicApply "demographic" demoRecord) "population_density"
        = .vfloat (1000 / 10)
    ∧ toNumber (pyGet (cleanRecord demoRecord) "households") = some 0
    ∧ pyGet (demographicApply "demographic" demoRecord) "average_household_size" = .vnull :=
  ⟨by decide, by decide, by norm_num,
    (c7_demographic_division_safe demoRecord).1 1000 10 (by decide) (by decide) (by norm_num),
    by decide,
    (c7_demographic_division_safe demoRecord).2.2.2 (Or.inr (Or.inr (by decide)))⟩

/-! ## C9 -/

/-- C9: in `GeoStrategy.apply`, a canonical coordinate whose cleaned value
is falsy is treated as absent (the `or`-chain falls through to the
abbreviated alias); hence a record with latitude `0.0` (or `0`), no
`lat` key and any parsable longitude produces latitude null,
`has_valid_coordinates` false and a null centroid, even though `0.0` is a
numerically valid coordinate. -/
theorem c9_geo_zero_latitude (r : Record) (lonq : ℚ)
    (hlat : recGet r "latitude" = some (.vfloat 0) ∨ recGet r "latitude" = some (.vint 0))
    (hnolat : recGet r "lat" = none)
    (hlon : cleanerToFloat (pyOr (pyGet (cleanRecord r) "longitude")
        (pyGet (cleanRecord r) "lon")) = some lonq) :
    pyGet (geoApply "geo" r) "latitude" = .vnull
    ∧ pyGet (geoApply "geo" r) "has_valid_coordinates" = .vbool false
    ∧ pyGet (geoApply "geo" r) "centroid" = .vnull := by
  have hlatnull : pyGet (cleanRecord r) "lat" = .vnull := by
    unfold pyGet
    rw [recGet_cleanRecord, hnolat]
    rfl
  have hlatv : cleanerToFloat (pyOr (pyGet (cleanRecord r) "latitude")
      (pyGet (cleanRecord r) "lat")) = none := by
    rcases hlat with h | h
    · have h1 : pyGet (cleanRecord r) "latitude" = .vfloat 0 := by
        unfold pyGet
        rw [recGet_cleanRecord, h]
        rfl
      rw [h1, hlatnull]
      rfl
    · have h1 : pyGet (cleanRecord r) "latitude" = .vint 0 := by
        unfold pyGet
        rw [recGet_cleanRecord, h]
        rfl
      rw [h1, hlatnull]
      rfl
  refine ⟨?_, ?_, ?_⟩
  · simp only [geoApply]
    rw [hlatv]
    simp only [pyGet]
    rw [recGet_dictSet_ne _ _ _ (by decide), recGet_dictSet_ne _ _ _ (by decide),
      recGet_dictSet_ne _ _ _ (by decide), recGet_dictPop_ne _ _ (by decide),
      recGet_dictPop_ne _ _ (by decide), recGet_dictSet_ne _ _ _ (by decide),
      recGet_dictSet_self]
    rfl
  · simp only [geoApply]
    rw [hlatv]
    simp only [pyGet]
    rw [recGet_dictSet_ne _ _ _ (by decide), recGet_dictSet_ne _ _ _ (by decide),
      recGet_dictSet_self]
    simp
  · simp only [geoApply]
    rw [hlatv]
    simp only [pyGet]
    rw [recGet_dictSet_ne _ _ _ (by decide), recGet_dictSet_self]
    simp

/-- The concrete geo record of the C9 witness. -/
def geoRecord : Record := [("latitude", .vfloat 0), ("longitude", .vstr "-73.99")]

/-- Witness for C9, at the record with latitude `0.0` and parsable
longitude `"-73.99"`. -/
theorem c9_geo_zero_latitude_witness :
    recGet geoRecord "latitude" = some (.vfloat 0)
    ∧ recGet geoRecord "lat" = none
    ∧ cleanerToFloat (pyOr (pyGet (cleanRecord geoRecord) "longitude")
        (pyGet (cleanRecord geoRecord) "lon")) = some (-(7399 / 100))
    ∧ pyGet (geoApply "geo" geoRecord) "latitude" = .vnull
    ∧ pyGet (geoApply "geo" geoRecord) "has_valid_coordinates" = .vbool false
    ∧ pyGet (geoApply "geo" geoRecord) "centroid" = .vnull := by
  have h1 : recGet geoRecord "latitude" = some (.vfloat 0) := rfl
  have h2 : recGet geoRecord "lat" = none := rfl
  have h3 : cleanerToFloat (pyOr (pyGet (cleanRecord geoRecord) "longitude")
      (pyGet (cleanRecord geoRecord) "lon")) = some (-(7399 / 100)) := by decide
  have hmain := c9_geo_zero_latitude geoRecord (-(7399 / 100)) (Or.inl h1) h2 h3
  exact ⟨h1, h2, h3, hmain.1, hmain.2.1, hmain.2.2⟩

/-! ## C10 -/

/-- The specification-side mask filter: the subsequence of records whose
mask entry is false, in input order. -/
def keepByMask : List Record → List Bool → List Record
  | [], _ => []
  | _, [] => []
  | r :: rs, b :: bs => if b then keepByMask rs bs else r :: keepByMask rs bs

theorem zip_filter_eq_keepByMask :
    ∀ (rs : List Record) (mask : List Bool),
      ((rs.zip mask).filter (fun rm => !rm.2)).map (·.1) = keepByMask rs mask := by
  intro rs
  induction rs with
  | nil => intro mask; cases mask <;> rfl
  | cons r rstl ih =>
    intro mask
    cases mask with
    | nil => rfl
    | cons b bs =>
      cases hb : b
      · simp only [List.zip_cons_cons, keepByMask, hb]
        rw [List.filter_cons_of_pos (by simp)]
        simp only [List.map_cons]
        rw [ih]
        simp
      · simp only [List.zip_cons_cons, keepByMask, hb]
        rw [List.filter_cons_of_neg (by simp)]
        rw [ih]
        simp

theorem keepByMask_length :
    ∀ (rs : List Record) (mask : List Bool), mask.length = rs.length →
      (keepByMask rs mask).length + mask.countP id = rs.length := by
  intro rs
  induction rs with
  | nil =>
    intro mask h
    have : mask = [] := List.length_eq_zero.mp h
    subst this
    rfl
  | cons r rstl ih =>
    intro mask h
    cases mask with
    | nil => simp at h
    | cons b bs =>
      have hlen : bs.length = rstl.length := by simpa using h
      have hrec := ih bs hlen
      cases hb : b
      · simp only [keepByMask, if_false, Bool.false_eq_true, List.length_cons]
        rw [List.countP_cons]
        simp only [id_eq]
        rw [if_neg (by decide)]
        omega
      · simp only [keepByMask, if_true, List.length_cons]
        rw [List.countP_cons]
        simp only [id_eq]
        rw [if_pos (by decide)]
        omega

theorem keepByMask_sublist :
    ∀ (rs : List Record) (mask : List Bool), List.Sublist (keepByMask rs mask) rs := by
  intro rs
  induction rs with
  | nil => intro mask; cases mask <;> simp [keepByMask]
  | cons r rstl ih =>
    intro mask
    cases mask with
    | nil => simp [keepByMask]
    | cons b bs =>
      cases b
      · exact List.Sublist.cons₂ r (ih bs)
      · exact List.Sublist.cons r (ih bs)

theorem predictProba_length (xgbAvail : Bool) (c : RowDropClassifier)
    (records : List Record) : (predictProba xgbAvail c records).length = records.length := by
  unfold predictProba
  by_cases h : records = []
  · subst h
    rfl
  · have hne : (records.map computeFeatures).isEmpty = false := by
      simp [List.isEmpty_iff, h]
    simp only [hne, Bool.false_eq_true, if_false]
    rcases c.booster with _ | b
    · simp
    · by_cases hc : c.modelType = "xgboost" ∧ xgbAvail = true
      · simp [hc]
      · simp [hc]

theorem predictDrop_length (xgbAvail : Bool)
    (train : List (Feat5 ℚ) → List ℕ → Feat5 ℚ → ℝ)
    (c : RowDropClassifier) (records : List Record) (autoFit : Bool) :
    (predictDrop xgbAvail train c records autoFit).length = records.length := by
  unfold predictDrop
  rw [List.length_map, predictProba_length]

/-- C10: for every batch and every classifier state (trained booster,
runtime availability and re-fit behaviour all quantified), `filter_records`
keeps exactly the mask-false subsequence of the input in input order, the
kept count plus the dropped count equals the batch size, and the kept
records are the input records themselves (a sublist of the input; the
embedding is pure, matching the source, whose feature extraction copies
each dict and never writes to it). -/
theorem c10_filter_records (xgbAvail : Bool)
    (train : List (Feat5 ℚ) → List ℕ → Feat5 ℚ → ℝ)
    (c : RowDropClassifier) (records : List Record) (autoFit : Bool) :
    (filterRecords xgbAvail train c records autoFit).1
        = keepByMask records (predictDrop xgbAvail train c records autoFit)
    ∧ (filterRecords xgbAvail train c records autoFit).1.length
        + (filterRecords xgbAvail train c records autoFit).2 = records.length
    ∧ List.Sublist (filterRecords xgbAvail train c records autoFit).1 records := by
  have hmask := predictDrop_length xgbAvail train c records autoFit
  have h1 : (filterRecords xgbAvail train c records autoFit).1
      = keepByMask records (predictDrop xgbAvail train c records autoFit) := by
    unfold filterRecords
    exact zip_filter_eq_keepByMask _ _
  have h2 : (filterRecords xgbAvail train c records autoFit).2
      = (predictDrop xgbAvail train c records autoFit).countP id := rfl
  refine ⟨h1, ?_, ?_⟩
  · rw [h1, h2]
    exact keepByMask_length _ _ hmask
  · rw [h1]
    exact keepByMask_sublist _ _

/-! ## C3 -/

/-- The complete first record of the classifier scenario. -/
def acmeRecord : Record :=
  [("name", .vstr "Acme"), ("amount", .vint 100), ("city", .vstr "NY")]

/-- The sparse second record of the classifier scenario. -/
def sparseRecord : Record :=
  [("name", .vstr ""), ("amount", .vint 0), ("city", .vnull)]

/-- The scenario batch. -/
def c3Records : List Record := [acmeRecord, sparseRecord]

theorem computeFeatures_acme : computeFeatures acmeRecord = ⟨0, 0, 0, 1/3, 15/16⟩ := by
  decide

theorem computeFeatures_sparse :
    computeFeatures sparseRecord = ⟨2/3, 1/3, 1/3, 0, 1⟩ := by
  decide

theorem sigmoid_ge_half_iff (z : ℝ) : (1 : ℝ) / 2 ≤ sigmoid z ↔ 0 ≤ z := by
  unfold sigmoid
  have hpos : (0 : ℝ) < 1 + Real.exp (-z) := by positivity
  rw [div_le_div_iff (by norm_num) hpos]
  constructor
  · intro h
    have hle : Real.exp (-z) ≤ 1 := by nlinarith
    have := Real.exp_le_one_iff.mp hle
    linarith
  · intro h
    have : Real.exp (-z) ≤ 1 := Real.exp_le_one_iff.mpr (by linarith)
    nlinarith

theorem scaleOf_eval (xs : List ℚ) (dflt v s : ℚ) (hvar : varOf xs = v)
    (hv : ¬ v = 0) (hs : 0 ≤ s) (hsq : v = s * s) :
    scaleOf xs dflt = ((s : ℚ) : ℝ) := by
  unfold scaleOf
  rw [hvar, if_neg hv, hsq]
  push_cast
  rw [show ((s : ℝ) * (s : ℝ)) = (s : ℝ) ^ 2 by ring,
    Real.sqrt_sq (by exact_mod_cast hs)]

/-- The classifier state after `fit` on the scenario batch: recomputed
statistics, heuristic model (both pseudo-labels equal 1, so no ensemble is
trained even when the runtime is available). -/
noncomputable def c3Fit : RowDropClassifier :=
  ⟨1/2, ⟨1/3, 1/6, 1/6, 1/6, 31/32⟩,
   ⟨((1/3 : ℚ) : ℝ), ((1/6 : ℚ) : ℝ), ((1/6 : ℚ) : ℝ), ((1/6 : ℚ) : ℝ), ((1/32 : ℚ) : ℝ)⟩,
   "heuristic", none⟩

theorem fit_c3 (xgbAvail : Bool) (train : List (Feat5 ℚ) → List ℕ → Feat5 ℚ → ℝ) :
    fit xgbAvail train (mkClassifier (1/2)) c3Records = c3Fit := by
  have hfeats : c3Records.map computeFeatures
      = [⟨0, 0, 0, 1/3, 15/16⟩, ⟨2/3, 1/3, 1/3, 0, 1⟩] := by decide
  simp only [fit, hfeats]
  rw [if_neg (by decide)]
  rw [if_neg (fun hand => absurd hand.2 (by decide))]
  unfold c3Fit
  rw [RowDropClassifier.mk.injEq]
  refine ⟨rfl, by decide, ?_, rfl, rfl⟩
  simp only [recomputeStats]
  rw [Feat5.mk.injEq]
  refine ⟨?_, ?_, ?_, ?_, ?_⟩
  · exact scaleOf_eval _ _ (1/9) (1/3) (by decide) (by decide) (by norm_num) (by norm_num)
  · exact scaleOf_eval _ _ (1/36) (1/6) (by decide) (by decide) (by norm_num) (by norm_num)
  · exact scaleOf_eval _ _ (1/36) (1/6) (by decide) (by decide) (by norm_num) (by norm_num)
  · exact scaleOf_eval _ _ (1/36) (1/6) (by decide) (by decide) (by norm_num) (by norm_num)
  · exact scaleOf_eval _ _ (1/1024) (1/32) (by decide) (by decide) (by norm_num) (by norm_num)

theorem z_acme :
    heuristicZ c3Fit.featureMeans c3Fit.featureScales ⟨0, 0, 0, 1/3, 15/16⟩
      = -(19/2 : ℝ) := by
  simp only [c3Fit, heuristicZ, standardize1, heuristicWeights, defaultScales]
  push_cast
  norm_num

theorem z_sparse :
    heuristicZ c3Fit.featureMeans c3Fit.featureScales ⟨2/3, 1/3, 1/3, 0, 1⟩
      = (15/2 : ℝ) := by
  simp only [c3Fit, heuristicZ, standardize1, heuristicWeights, defaultScales]
  push_cast
  norm_num

/-- C3: on the batch `[{"name":"Acme","amount":100,"city":"NY"},
{"name":"","amount":0,"city":null}]` with threshold 0.5, `predict_drop`
returns the mask `[false, true]` and `filter_records` keeps exactly the
`Acme` record with a dropped count of 1 — for either availability of the
tree runtime and any training backend, since both pseudo-labels are 1 and
the classifier therefore falls back to the heuristic model. -/
theorem c3_row_classifier_scenario (xgbAvail : Bool)
    (train : List (Feat5 ℚ) → List ℕ → Feat5 ℚ → ℝ) :
    predictDrop xgbAvail train (mkClassifier (1/2)) c3Records true = [false, true]
    ∧ (filterRecords xgbAvail train (mkClassifier (1/2)) c3Records true).1 = [acmeRecord]
    ∧ (filterRecords xgbAvail train (mkClassifier (1/2)) c3Records true).2 = 1 := by
  have hfeats : c3Records.map computeFeatures
      = [⟨0, 0, 0, 1/3, 15/16⟩, ⟨2/3, 1/3, 1/3, 0, 1⟩] := by decide
  have hproba : predictProba xgbAvail c3Fit c3Records
      = [heuristicProb c3Fit ⟨0, 0, 0, 1/3, 15/16⟩,
         heuristicProb c3Fit ⟨2/3, 1/3, 1/3, 0, 1⟩] := by
    simp only [predictProba, hfeats, c3Fit]
    rfl
  have hth : ((c3Fit.threshold : ℚ) : ℝ) = (1/2 : ℝ) := by
    norm_num [c3Fit]
  have h1 : ¬(heuristicProb c3Fit ⟨0, 0, 0, 1/3, 15/16⟩ ≥ ((1/2 : ℚ) : ℝ)) := by
    unfold heuristicProb
    rw [z_acme, ge_iff_le]
    push_cast
    rw [sigmoid_ge_half_iff]
    norm_num
  have h2 : heuristicProb c3Fit ⟨2/3, 1/3, 1/3, 0, 1⟩ ≥ ((1/2 : ℚ) : ℝ) := by
    unfold heuristicProb
    rw [z_sparse, ge_iff_le]
    push_cast
    rw [sigmoid_ge_half_iff]
    norm_num
  have hmask : predictDrop xgbAvail train (mkClassifier (1/2)) c3Records true
      = [false, true] := by
    simp only [predictDrop, if_true, fit_c3, hproba, List.map_cons, List.map_nil]
    rw [decide_eq_false (by simpa [c3Fit] using h1), decide_eq_true (by simpa [c3Fit] using h2)]
  refine ⟨hmask, ?_, ?_⟩
  · simp only [filterRecords, hmask]
    rfl
  · simp only [filterRecords, hmask]
    rfl
